import Mathlib

/-!
Verification of the bulk media-acquisition engine in
`scripts/download_full_quran.py` (class `QuranDownloader`).

The Python source is shallowly embedded:

* the static table `VERSE_COUNTS` and the pure address model
  (`calculate_global_verse_number`, download paths) become Lean functions;
* the stateful Transfer Unit `download_verse` becomes an explicit
  state-passing function over a filesystem value, with the network, the
  `mkdir` call and the local `open`/`write` supplied by an oracle (`Env`),
  and an uncaught Python exception modelled as `Except.error`;
* the per-collection orchestration `download_surah` / `download_all`
  becomes folds over the verse and (reciter, surah) lists;
* the semaphore-based concurrency of the run becomes a small-step
  transition relation on the multiset of task phases.
-/

namespace Hikma

/-- Verse counts for all 114 surahs, copied from `VERSE_COUNTS` in
`scripts/download_full_quran.py` (lines 16-29). -/
def VERSE_COUNTS : List Nat := [
    7, 286, 200, 176, 120, 165, 206, 75, 129, 109,
    123, 111, 43, 52, 99, 128, 111, 110, 98, 135,
    112, 78, 118, 64, 77, 227, 93, 88, 69, 60,
    34, 30, 73, 54, 45, 83, 182, 88, 75, 85,
    54, 53, 89, 59, 37, 35, 38, 29, 18, 45,
    60, 49, 62, 55, 78, 96, 29, 22, 24, 13,
    14, 11, 11, 18, 12, 12, 30, 52, 52, 44,
    28, 28, 20, 56, 40, 31, 50, 40, 46, 42,
    29, 19, 36, 25, 22, 17, 19, 26, 30, 20,
    15, 21, 11, 8, 8, 19, 5, 8, 8, 11,
    11, 8, 3, 9, 5, 4, 7, 3, 6, 3,
    5, 4, 5, 6]

/-- The reciter list `RECITERS` (lines 32-35). -/
def RECITERS : List String := ["ar.alafasy", "ar.husary"]

/-- `MAX_CONCURRENT` (line 44): the semaphore capacity. -/
def MAX_CONCURRENT : Nat := 8

/-- `VERSE_COUNTS[surah_num - 1]`: the item count of a 1-based surah
(out-of-range access is a programmer error in the source; modelled as 0). -/
def verseCount (surah_num : Nat) : Nat := VERSE_COUNTS.getD (surah_num - 1) 0

/-- `calculate_global_verse_number` (lines 68-73):
`sum(VERSE_COUNTS[:surah_num - 1]) + verse_num`. -/
def calculate_global_verse_number (surah_num verse_num : Nat) : Nat :=
  (VERSE_COUNTS.take (surah_num - 1)).sum + verse_num

/-- `sum(VERSE_COUNTS[:c])`, the number of verses in the first `c` surahs. -/
def prefixSum (c : Nat) : Nat := (VERSE_COUNTS.take c).sum

/-- The precondition of the address model: `collection_id` in `[1, 114]`,
`item_id` in `[1, item_count(collection_id)]`. -/
def validPair (c v : Nat) : Prop :=
  1 ≤ c ∧ c ≤ 114 ∧ 1 ≤ v ∧ v ≤ verseCount c

instance (c v : Nat) : Decidable (validPair c v) := by
  unfold validPair; infer_instance

theorem length_VERSE_COUNTS : VERSE_COUNTS.length = 114 := by decide

theorem prefixSum_succ (c : Nat) (hc : c < 114) :
    prefixSum (c + 1) = prefixSum c + verseCount (c + 1) := by
  have hlen : c < VERSE_COUNTS.length := by rw [length_VERSE_COUNTS]; exact hc
  unfold prefixSum verseCount
  rw [List.take_succ, List.sum_append]
  simp [List.getElem?_eq_getElem hlen, List.getD_eq_getElem?_getD]

theorem prefixSum_mono {a b : Nat} (h : a ≤ b) : prefixSum a ≤ prefixSum b := by
  unfold prefixSum
  have h1 : VERSE_COUNTS.take a = (VERSE_COUNTS.take b).take a := by
    rw [List.take_take, Nat.min_eq_left h]
  calc (VERSE_COUNTS.take a).sum
      = ((VERSE_COUNTS.take b).take a).sum := by rw [h1]
    _ ≤ ((VERSE_COUNTS.take b).take a).sum + ((VERSE_COUNTS.take b).drop a).sum :=
        Nat.le_add_right _ _
    _ = (VERSE_COUNTS.take b).sum := by
        rw [← List.sum_append, List.take_append_drop]

theorem prefixSum_total : prefixSum 114 = 6236 := by decide

theorem verseCount_pos : ∀ c < 114, 1 ≤ VERSE_COUNTS.getD c 0 := by decide

theorem verseCount_pos' (c : Nat) (h1 : 1 ≤ c) (h2 : c ≤ 114) :
    1 ≤ verseCount c := by
  unfold verseCount
  exact verseCount_pos (c - 1) (by omega)

/-- `prefixSum c = prefixSum (c-1) + verseCount c` for `c` in `[1,114]`. -/
theorem prefixSum_pred (c : Nat) (h1 : 1 ≤ c) (h2 : c ≤ 114) :
    prefixSum c = prefixSum (c - 1) + verseCount c := by
  have h : c = (c - 1) + 1 := by omega
  rw [h, prefixSum_succ (c - 1) (by omega)]
  rw [← h]

/-- Strictly larger collections give strictly larger global indices. -/
theorem global_lt_of_collection_lt {c1 v1 c2 v2 : Nat}
    (h1 : validPair c1 v1) (h2 : validPair c2 v2) (hlt : c1 < c2) :
    calculate_global_verse_number c1 v1 < calculate_global_verse_number c2 v2 := by
  obtain ⟨hc1a, hc1b, hv1a, hv1b⟩ := h1
  obtain ⟨hc2a, hc2b, hv2a, hv2b⟩ := h2
  unfold calculate_global_verse_number
  have step1 : prefixSum (c1 - 1) + v1 ≤ prefixSum c1 := by
    rw [prefixSum_pred c1 hc1a hc1b]
    exact Nat.add_le_add_left hv1b _
  have step2 : prefixSum c1 ≤ prefixSum (c2 - 1) := prefixSum_mono (by omega)
  calc (VERSE_COUNTS.take (c1 - 1)).sum + v1
      = prefixSum (c1 - 1) + v1 := rfl
    _ ≤ prefixSum (c2 - 1) := le_trans step1 step2
    _ < prefixSum (c2 - 1) + v2 := by omega

/-- Surjectivity helper: every `n` in `(prefixSum 0, prefixSum k]` is the
global index of a valid pair with collection at most `k`. -/
theorem global_surj_aux :
    ∀ k, k ≤ 114 → ∀ n, 1 ≤ n → n ≤ prefixSum k →
    ∃ c v, 1 ≤ c ∧ c ≤ k ∧ 1 ≤ v ∧ v ≤ verseCount c ∧
      calculate_global_verse_number c v = n := by
  intro k
  induction k with
  | zero =>
    intro _ n h1 h2
    exfalso
    have : prefixSum 0 = 0 := rfl
    omega
  | succ k ih =>
    intro hk n h1 h2
    by_cases hcase : n ≤ prefixSum k
    · obtain ⟨c, v, p1, p2, p3, p4, p5⟩ := ih (by omega) n h1 hcase
      exact ⟨c, v, p1, by omega, p3, p4, p5⟩
    · push_neg at hcase
      refine ⟨k + 1, n - prefixSum k, by omega, le_refl _, by omega, ?_, ?_⟩
      · have := prefixSum_succ k (by omega)
        omega
      · unfold calculate_global_verse_number
        have : (VERSE_COUNTS.take (k + 1 - 1)).sum = prefixSum k := rfl
        omega

/-- C1: `global_index(collection, item)` equals the sum of item counts of all
prior collections plus `item`; it is strictly increasing in the item for a
fixed collection; the first global index of collection `c+1` is one plus the
last of collection `c`; and on valid pairs it is a bijection onto `1..6236`
(injective, lands in the range, and every value of the range is hit). -/
theorem c1_global_index_bijection :
    (∀ c v, calculate_global_verse_number c v =
      (VERSE_COUNTS.take (c - 1)).sum + v) ∧
    (∀ c v1 v2, v1 < v2 →
      calculate_global_verse_number c v1 < calculate_global_verse_number c v2) ∧
    (∀ c, 1 ≤ c → c ≤ 113 →
      calculate_global_verse_number (c + 1) 1 =
        calculate_global_verse_number c (verseCount c) + 1) ∧
    (∀ c1 v1 c2 v2, validPair c1 v1 → validPair c2 v2 →
      calculate_global_verse_number c1 v1 = calculate_global_verse_number c2 v2 →
      c1 = c2 ∧ v1 = v2) ∧
    (∀ c v, validPair c v →
      1 ≤ calculate_global_verse_number c v ∧
      calculate_global_verse_number c v ≤ 6236) ∧
    (∀ n, 1 ≤ n → n ≤ 6236 →
      ∃ c v, validPair c v ∧ calculate_global_verse_number c v = n) := by
  refine ⟨fun c v => rfl, ?_, ?_, ?_, ?_, ?_⟩
  · intro c v1 v2 h
    unfold calculate_global_verse_number
    omega
  · intro c h1 h2
    unfold calculate_global_verse_number
    have ha : (VERSE_COUNTS.take (c + 1 - 1)).sum = prefixSum c := rfl
    have hb : (VERSE_COUNTS.take (c - 1)).sum = prefixSum (c - 1) := rfl
    have := prefixSum_pred c h1 (by omega)
    omega
  · intro c1 v1 c2 v2 h1 h2 heq
    rcases Nat.lt_trichotomy c1 c2 with hlt | heqc | hgt
    · exact absurd heq (Nat.ne_of_lt (global_lt_of_collection_lt h1 h2 hlt))
    · subst heqc
      refine ⟨rfl, ?_⟩
      unfold calculate_global_verse_number at heq
      omega
    · exact absurd heq.symm (Nat.ne_of_lt (global_lt_of_collection_lt h2 h1 hgt))
  · intro c v hcv
    obtain ⟨hca, hcb, hva, hvb⟩ := hcv
    constructor
    · unfold calculate_global_verse_number; omega
    · have step1 : calculate_global_verse_number c v ≤ prefixSum c := by
        unfold calculate_global_verse_number
        rw [prefixSum_pred c hca hcb]
        have : (VERSE_COUNTS.take (c - 1)).sum = prefixSum (c - 1) := rfl
        omega
      have step2 : prefixSum c ≤ prefixSum 114 := prefixSum_mono hcb
      rw [prefixSum_total] at step2
      omega
  · intro n h1 h2
    have h2' : n ≤ prefixSum 114 := by rw [prefixSum_total]; omega
    obtain ⟨c, v, p1, p2, p3, p4, p5⟩ := global_surj_aux 114 (le_refl _) n h1 h2'
    exact ⟨c, v, ⟨p1, p2, p3, p4⟩, p5⟩

/-- Witness for C1: the bijection hit at `n = 10` yields the concrete valid
pair `(2, 3)` — checked by instantiating the theorem. -/
theorem c1_witness :
    ∃ c v, validPair c v ∧ calculate_global_verse_number c v = 10 :=
  c1_global_index_bijection.2.2.2.2.2 10 (by decide) (by decide)

/-! ## Transfer Unit: `download_verse` (lines 79-122)

The filesystem is an explicit value; the network and `mkdir` are an oracle.
An uncaught Python exception is `Except.error`; a returned
`(success, message)` pair is `Except.ok`. -/

/-- `BASE_DIR / reciter / surah_num / verse_num.mp3`, modelled as the triple
the path is derived from (`get_download_path`, lines 75-77). -/
abbrev VersePath := String × Nat × Nat

/-- The parent directory `BASE_DIR / reciter / surah_num`. -/
abbrev DirPath := String × Nat

/-- The local mirror: which files and directories exist. -/
structure FS where
  files : List VersePath
  dirs : List DirPath
deriving DecidableEq

def FS.hasFile (fs : FS) (p : VersePath) : Bool := fs.files.contains p

/-- `open(file_path, 'wb').write(content)` at a fresh path (line 112-113). -/
def FS.addFile (fs : FS) (p : VersePath) : FS := { fs with files := p :: fs.files }

/-- `file_path.parent.mkdir(parents=True, exist_ok=True)` (line 98). -/
def FS.addDir (fs : FS) (d : DirPath) : FS :=
  { fs with dirs := if fs.dirs.contains d then fs.dirs else d :: fs.dirs }

def emptyFS : FS := { files := [], dirs := [] }

/-- `get_download_path` (lines 75-77): path derived from the triple. -/
def get_download_path (reciter : String) (surah_num verse_num : Nat) : VersePath :=
  (reciter, surah_num, verse_num)

/-- What one `session.get(url)` does: a status response (200 = success),
an `asyncio.TimeoutError`, or any other exception with its message. -/
inductive FetchOutcome where
  | response (code : Nat)
  | timeout
  | exc (msg : String)
deriving DecidableEq

/-- Whether a fetch outcome is the HTTP 200 success. -/
def isOk200 : FetchOutcome → Bool
  | .response code => code == 200
  | _ => false

/-- What `open(file_path, 'wb')` followed by `f.write(content)`
(lines 112-113) does. These lines sit INSIDE the `try` of lines 103-122,
so both failure modes are caught and returned as failed results:
either the write raises after `open` has already created/truncated the
file (e.g. disk full mid-write), leaving a (partial) file on disk, or
`open` itself raises before the file exists (e.g. permission denied). -/
inductive WriteOutcome where
  | ok
  | failAfterCreate (msg : String)
  | failBeforeCreate (msg : String)
deriving DecidableEq

/-- Oracle for the run: whether `mkdir` succeeds for a directory, the
outcome of fetching `BASE_URL/{reciter}/{global_verse_num}.mp3`, and the
outcome of writing the body to a local path. -/
structure Env where
  mkdirOk : DirPath → Bool
  fetch : String → Nat → FetchOutcome
  write : VersePath → WriteOutcome

/-- The always-succeeding oracle (mocked always-200 endpoint, all local
IO succeeding). -/
def allOkEnv : Env :=
  { mkdirOk := fun _ => true, fetch := fun _ _ => .response 200,
    write := fun _ => .ok }

/-- `download_verse` (lines 79-122). Inside the semaphore block: existence
check first (skip), then `mkdir` (outside the `try`, so its failure escapes
as `Except.error`), then the fetch with all its failure modes caught and
returned as `(False, reason)`; on HTTP 200 the plain (non-atomic)
`open`/`write` of lines 112-113, whose own IO errors are also caught —
after possibly having created the file. -/
def download_verse (env : Env) (fs : FS) (reciter : String)
    (surah_num verse_num global_verse_num : Nat) :
    Except String ((Bool × String) × FS) :=
  let file_path := get_download_path reciter surah_num verse_num
  if fs.hasFile file_path then
    .ok ((true, "skipped"), fs)
  else
    if env.mkdirOk (reciter, surah_num) then
      let fs1 := fs.addDir (reciter, surah_num)
      match env.fetch reciter global_verse_num with
      | .response code =>
        if code = 200 then
          match env.write file_path with
          | .ok => .ok ((true, "downloaded"), fs1.addFile file_path)
          | .failAfterCreate msg => .ok ((false, msg), fs1.addFile file_path)
          | .failBeforeCreate msg => .ok ((false, msg), fs1)
        else
          .ok ((false, "HTTP " ++ toString code), fs1)
      | .timeout => .ok ((false, "timeout"), fs1)
      | .exc msg => .ok ((false, msg), fs1)
    else
      .error "mkdir OSError"

/-! A second view of the same Transfer Unit: the sequence of primitive
actions it performs, in source order, used for ordering claims. -/

inductive Act where
  | acquireSem | checkExists | mkdirParents | fetchGet | writeFile | releaseSem
deriving DecidableEq

/-- The order of primitive operations in `download_verse` (lines 90-122):
`async with self.semaphore` acquires first and releases on every exit path;
the existence check, `mkdir`, the GET and the conditional write all happen
while holding the semaphore. -/
def verseActions (fileExists : Bool) (outcome : FetchOutcome) : List Act :=
  Act.acquireSem :: Act.checkExists ::
    (if fileExists then [Act.releaseSem]
     else Act.mkdirParents :: Act.fetchGet ::
       (match outcome with
        | .response code =>
          if code = 200 then [Act.writeFile, Act.releaseSem] else [Act.releaseSem]
        | _ => [Act.releaseSem]))

/-! ## Per-collection orchestration: `download_surah` (lines 124-146) -/

/-- The per-surah counter dict built at lines 141-146. -/
structure SurahResult where
  downloaded : Nat
  skipped : Nat
  failed : Nat
  total : Nat
deriving DecidableEq

/-- The counting of `results` (lines 137-139): successes tagged
`"downloaded"`, successes tagged `"skipped"`, and failures. -/
def countResults (results : List (Bool × String)) (total : Nat) : SurahResult :=
  { downloaded := (results.filter fun r => r.1 && r.2 == "downloaded").length
    skipped := (results.filter fun r => r.1 && r.2 == "skipped").length
    failed := (results.filter fun r => !r.1).length
    total := total }

/-- `range(1, verse_count + 1)` (line 129). -/
def verseList (surah_num : Nat) : List Nat := List.range' 1 (verseCount surah_num)

/-- The `asyncio.gather` of one `download_verse` per verse, sequentialised
(every task touches only its own path, so gather order does not affect the
result multiset or the final filesystem); an exception from any task
propagates out of the gather. -/
def downloadVerses (env : Env) (reciter : String) (surah_num : Nat) :
    FS → List Nat → Except String (List (Bool × String) × FS)
  | fs, [] => .ok ([], fs)
  | fs, v :: vs =>
    match download_verse env fs reciter surah_num v
        (calculate_global_verse_number surah_num v) with
    | .error e => .error e
    | .ok (r, fs1) =>
      match downloadVerses env reciter surah_num fs1 vs with
      | .error e => .error e
      | .ok (rs, fs2) => .ok (r :: rs, fs2)

/-- `download_surah` (lines 124-146): run all verses, count the results. -/
def download_surah (env : Env) (fs : FS) (reciter : String) (surah_num : Nat) :
    Except String (SurahResult × FS) :=
  match downloadVerses env reciter surah_num fs (verseList surah_num) with
  | .error e => .error e
  | .ok (results, fs1) => .ok (countResults results (verseCount surah_num), fs1)

/-! ## Run-wide orchestration: `download_all` (lines 148-196) -/

/-- The run-wide counters `total_downloaded/skipped/failed` (lines 53-55). -/
structure Totals where
  total_downloaded : Nat
  total_skipped : Nat
  total_failed : Nat
deriving DecidableEq

def Totals.zero : Totals :=
  { total_downloaded := 0, total_skipped := 0, total_failed := 0 }

/-- Lines 176-178: fold one surah result into the run totals. -/
def addTotals (t : Totals) (r : SurahResult) : Totals :=
  { total_downloaded := t.total_downloaded + r.downloaded
    total_skipped := t.total_skipped + r.skipped
    total_failed := t.total_failed + r.failed }

/-- Line 191: `result['failed'] > result['total'] * 0.5`, with the Python
float arithmetic modelled exactly in ℚ (every value that occurs — a count
up to 286 and its half — is exactly representable in binary floating
point, so ℚ is a faithful model of this comparison). -/
def needsCooldown (failed total : Nat) : Bool :=
  decide ((total : ℚ) * (1 / 2) < (failed : ℚ))

/-- The nested loops of `download_all` (lines 164-168): every reciter, then
every surah 1..114. -/
def allJobs : List (String × Nat) :=
  RECITERS.flatMap fun r => (List.range' 1 114).map fun s => (r, s)

/-- The body of `download_all`: walk the jobs, threading the filesystem and
the totals; a surah whose gather raises aborts the run with the totals
accumulated so far (the `finally`/`except` path of lines 195, 236-238). -/
def runJobs (env : Env) : List (String × Nat) → FS → Totals → Totals × FS
  | [], fs, t => (t, fs)
  | (r, s) :: rest, fs, t =>
    match download_surah env fs r s with
    | .error _ => (t, fs)
    | .ok (res, fs1) => runJobs env rest fs1 (addTotals t res)

/-- `download_all` (lines 148-196): totals start at zero. -/
def download_all (env : Env) (fs : FS) : Totals × FS :=
  runJobs env allJobs fs Totals.zero

/-! ## Instrumented trace of the run, for counter-update-timing claims.

The observable events of `download_all`, in program order: each Transfer
Unit resolving (inside a surah's gather), then the single point where that
surah's counts are folded into the run totals (lines 176-178), then the
optional cooldown sleep (lines 191-193). -/

inductive Ev where
  | resolve (tag : Bool × String)
  | update (d s f : Nat)
  | cooldown
deriving DecidableEq

/-- The events of one surah of the run, in order. -/
def surahBlock (results : List (Bool × String)) (res : SurahResult) : List Ev :=
  results.map Ev.resolve ++ [Ev.update res.downloaded res.skipped res.failed] ++
    (if needsCooldown res.failed res.total then [Ev.cooldown] else [])

/-- The per-surah event blocks of the whole run. -/
def runBlocks (env : Env) : List (String × Nat) → FS → List (List Ev)
  | [], _ => []
  | (r, s) :: rest, fs =>
    match downloadVerses env r s fs (verseList s) with
    | .error _ => []
    | .ok (results, fs1) =>
      surahBlock results (countResults results (verseCount s)) ::
        runBlocks env rest fs1

/-- The flat event trace of `download_all`. -/
def runTrace (env : Env) (fs : FS) : List Ev := (runBlocks env allJobs fs).flatten

def resolveTag : Ev → Option (Bool × String)
  | .resolve t => some t
  | _ => none

/-- The exact tally of the Transfer Units that have resolved in a trace
prefix, classified the way lines 137-139 classify them. -/
def resolvedOf (evs : List Ev) : Totals :=
  let tags := evs.filterMap resolveTag
  { total_downloaded := (tags.filter fun r => r.1 && r.2 == "downloaded").length
    total_skipped := (tags.filter fun r => r.1 && r.2 == "skipped").length
    total_failed := (tags.filter fun r => !r.1).length }

/-- The run-wide counters as reported after a trace prefix: the sum of the
`update` events seen so far (lines 176-178). -/
def reportedOf (evs : List Ev) : Totals :=
  { total_downloaded :=
      (evs.map fun e => match e with | .update d _ _ => d | _ => 0).sum
    total_skipped :=
      (evs.map fun e => match e with | .update _ s _ => s | _ => 0).sum
    total_failed :=
      (evs.map fun e => match e with | .update _ _ f => f | _ => 0).sum }

/-! ## The run-wide semaphore (lines 44, 56, 90): a step relation.

One cooperative task per Transfer Unit. A task is `pending` before entering
`async with self.semaphore`, `checking`/`fetching` while holding a slot
(`fetching` exactly while its network request is in flight), `done` after
release. `acquire` is enabled only when fewer than `cap` tasks hold a slot:
that is the counting-semaphore gate. The capacity is part of the state so
that its constancy along the run (one semaphore for the whole run) is
itself provable. -/

inductive Phase where
  | pending | checking | fetching | done
deriving DecidableEq

def isHolding (p : Phase) : Bool := p == Phase.checking || p == Phase.fetching

def holdingCount (l : List Phase) : Nat := l.countP isHolding

def inflightCount (l : List Phase) : Nat := l.countP fun p => p == Phase.fetching

/-- The state of the run: the semaphore capacity and all task phases. -/
structure SemState where
  cap : Nat
  tasks : List Phase
deriving DecidableEq

/-- One scheduler step of the run. -/
inductive SemStep : SemState → SemState → Prop where
  | acquire (cap : Nat) (l : List Phase) (i : Nat)
      (h : l[i]? = some Phase.pending) (hcap : holdingCount l < cap) :
      SemStep ⟨cap, l⟩ ⟨cap, l.set i Phase.checking⟩
  | startFetch (cap : Nat) (l : List Phase) (i : Nat)
      (h : l[i]? = some Phase.checking) :
      SemStep ⟨cap, l⟩ ⟨cap, l.set i Phase.fetching⟩
  | endFetch (cap : Nat) (l : List Phase) (i : Nat)
      (h : l[i]? = some Phase.fetching) :
      SemStep ⟨cap, l⟩ ⟨cap, l.set i Phase.checking⟩
  | release (cap : Nat) (l : List Phase) (i : Nat)
      (h : l[i]? = some Phase.checking) :
      SemStep ⟨cap, l⟩ ⟨cap, l.set i Phase.done⟩

/-- The initial state of a run over a catalog of `n` items: the semaphore
has capacity `MAX_CONCURRENT` and every task is pending. -/
def initState (n : Nat) : SemState :=
  ⟨MAX_CONCURRENT, List.replicate n Phase.pending⟩

/-! ## Oracles used as concrete scenarios -/

/-- A mocked endpoint that always answers a non-200 status. -/
def env404 : Env :=
  { mkdirOk := fun _ => true, fetch := fun _ _ => .response 404,
    write := fun _ => .ok }

/-- An oracle whose `mkdir` raises `OSError` (e.g. permission denied). -/
def mkdirFailEnv : Env :=
  { mkdirOk := fun _ => false, fetch := fun _ _ => .response 200,
    write := fun _ => .ok }

/-- An oracle whose fetch succeeds but whose local write raises after
`open` has created the file (e.g. disk full while writing the body). -/
def writeFailEnv : Env :=
  { mkdirOk := fun _ => true, fetch := fun _ _ => .response 200,
    write := fun _ => .failAfterCreate "No space left on device" }

/-- C2: when the target file already exists the Transfer Unit returns the
skipped result with the filesystem untouched, its action trace contains no
GET and no write; and in general a Transfer Unit that returns a result has
written at most one file, always at a path that did not exist before (it
never overwrites). -/
theorem c2_skip_no_network_no_overwrite :
    (∀ env fs reciter s v g,
      fs.hasFile (get_download_path reciter s v) = true →
      download_verse env fs reciter s v g = .ok ((true, "skipped"), fs)) ∧
    (∀ o, Act.fetchGet ∉ verseActions true o ∧ Act.writeFile ∉ verseActions true o) ∧
    (∀ env fs reciter s v g r fs',
      download_verse env fs reciter s v g = .ok (r, fs') →
      fs'.files = fs.files ∨
        (fs'.files = get_download_path reciter s v :: fs.files ∧
          fs.hasFile (get_download_path reciter s v) = false)) := by
  refine ⟨?_, ?_, ?_⟩
  · intro env fs reciter s v g h
    unfold download_verse
    simp [h]
  · intro o
    constructor <;> simp [verseActions]
  · intro env fs reciter s v g r fs' h
    unfold download_verse at h
    cases hex : fs.hasFile (get_download_path reciter s v) with
    | true =>
      simp [hex] at h
      left
      rw [← h.2]
    | false =>
      simp [hex] at h
      cases hmk : env.mkdirOk (reciter, s) with
      | false => simp [hmk] at h
      | true =>
        simp [hmk] at h
        cases hfetch : env.fetch reciter g with
        | response code =>
          rw [hfetch] at h
          by_cases hc : code = 200
          · simp only [hc, if_true] at h
            cases hw : env.write (get_download_path reciter s v) with
            | ok =>
              rw [hw] at h
              simp at h
              right
              exact ⟨by rw [← h.2]; rfl, rfl⟩
            | failAfterCreate msg =>
              rw [hw] at h
              simp at h
              right
              exact ⟨by rw [← h.2]; rfl, rfl⟩
            | failBeforeCreate msg =>
              rw [hw] at h
              simp at h
              left
              rw [← h.2]
              rfl
          · simp [hc] at h
            left
            rw [← h.2]
            rfl
        | timeout =>
          rw [hfetch] at h
          simp at h
          left
          rw [← h.2]
          rfl
        | exc m =>
          rw [hfetch] at h
          simp at h
          left
          rw [← h.2]
          rfl

/-- Witness for C2: a file already present is skipped and nothing changes. -/
theorem c2_witness :
    download_verse env404 ⟨[("ar.alafasy", 1, 1)], []⟩ "ar.alafasy" 1 1 1 =
      .ok ((true, "skipped"), (⟨[("ar.alafasy", 1, 1)], []⟩ : FS)) :=
  c2_skip_no_network_no_overwrite.1 env404 ⟨[("ar.alafasy", 1, 1)], []⟩
    "ar.alafasy" 1 1 1 (by rfl)

/-- C5: the cooldown comparison at line 191 fires exactly when
`failed > total * 0.5` (equivalently `2 * failed > total`), and a cooldown
event appears in a collection's block exactly when that comparison fires. -/
theorem c5_cooldown_threshold :
    (∀ f t, needsCooldown f t = true ↔ t < 2 * f) ∧
    (∀ results res, Ev.cooldown ∈ surahBlock results res ↔
      needsCooldown res.failed res.total = true) := by
  constructor
  · intro f t
    unfold needsCooldown
    rw [decide_eq_true_eq]
    constructor
    · intro h
      have h2 : (t : ℚ) < 2 * f := by linarith
      exact_mod_cast h2
    · intro h
      have h2 : (t : ℚ) < 2 * f := by exact_mod_cast h
      linarith
  · intro results res
    unfold surahBlock
    constructor
    · intro h
      rcases List.mem_append.mp h with h1 | h1
      · rcases List.mem_append.mp h1 with h2 | h2
        · obtain ⟨t, _, ht⟩ := List.mem_map.mp h2
          exact absurd ht (by simp)
        · simp at h2
      · by_contra hnc
        simp [hnc] at h1
    · intro h
      apply List.mem_append.mpr
      right
      simp [h]

/-- C6 counterexample: with the file absent and the endpoint answering 404,
the Transfer Unit returns failed yet the filesystem has changed — the
parent directory was created before the fetch (line 98 runs before the
`try` block), so directory creation is not confined to the HTTP 200 path
and the filesystem is not left unchanged on failure. -/
theorem c6_counterexample :
    download_verse env404 emptyFS "ar.alafasy" 1 1 1 =
      .ok ((false, "HTTP 404"), (⟨[], [("ar.alafasy", 1)]⟩ : FS)) ∧
    (⟨[], [("ar.alafasy", 1)]⟩ : FS) ≠ emptyFS := by
  constructor
  · rfl
  · decide

/-- C6 amended: parent-directory creation happens on every path where the
target file is absent and `mkdir` succeeds — before the fetch, even when
the result is failed. The file write is attempted only in the HTTP 200
path, as a plain (non-atomic) `open`/`write`: a failed result caused by
the fetch (non-200 status, timeout, transport exception) or by `open`
failing before the file exists leaves the files unchanged, with only the
parent directory possibly added; an IO error raised during the write after
`open` created the file (lines 112-113, inside the `try`) is likewise
caught and returned as failed, leaving the partially-written file at the
previously-absent path; a downloaded result writes the body at the
previously-absent local path. -/
theorem c6_amended_write_only_on_200 :
    (∀ env fs reciter s v g m fs',
      download_verse env fs reciter s v g = .ok ((false, m), fs') →
      fs'.dirs = (fs.addDir (reciter, s)).dirs ∧
      (fs'.files = fs.files ∨
        (fs'.files = get_download_path reciter s v :: fs.files ∧
          fs.hasFile (get_download_path reciter s v) = false ∧
          isOk200 (env.fetch reciter g) = true))) ∧
    (∀ env fs reciter s v g fs',
      download_verse env fs reciter s v g = .ok ((true, "downloaded"), fs') →
      fs' = (fs.addDir (reciter, s)).addFile (get_download_path reciter s v) ∧
        fs.hasFile (get_download_path reciter s v) = false) := by
  constructor
  · intro env fs reciter s v g m fs' h
    unfold download_verse at h
    cases hex : fs.hasFile (get_download_path reciter s v) with
    | true => simp [hex] at h
    | false =>
      simp [hex] at h
      cases hmk : env.mkdirOk (reciter, s) with
      | false => simp [hmk] at h
      | true =>
        simp [hmk] at h
        cases hfetch : env.fetch reciter g with
        | response code =>
          rw [hfetch] at h
          by_cases hc : code = 200
          · simp only [hc, if_true] at h
            cases hw : env.write (get_download_path reciter s v) with
            | ok =>
              rw [hw] at h
              simp at h
            | failAfterCreate msg =>
              rw [hw] at h
              simp at h
              refine ⟨by rw [← h.2]; rfl, Or.inr ⟨by rw [← h.2]; rfl, rfl, ?_⟩⟩
              simp [hc, isOk200]
            | failBeforeCreate msg =>
              rw [hw] at h
              simp at h
              exact ⟨by rw [← h.2], Or.inl (by rw [← h.2]; rfl)⟩
          · simp [hc] at h
            exact ⟨by rw [← h.2], Or.inl (by rw [← h.2]; rfl)⟩
        | timeout =>
          rw [hfetch] at h
          simp at h
          exact ⟨by rw [← h.2], Or.inl (by rw [← h.2]; rfl)⟩
        | exc msg =>
          rw [hfetch] at h
          simp at h
          exact ⟨by rw [← h.2], Or.inl (by rw [← h.2]; rfl)⟩
  · intro env fs reciter s v g fs' h
    unfold download_verse at h
    cases hex : fs.hasFile (get_download_path reciter s v) with
    | true => simp [hex] at h
    | false =>
      simp [hex] at h
      cases hmk : env.mkdirOk (reciter, s) with
      | false => simp [hmk] at h
      | true =>
        simp [hmk] at h
        cases hfetch : env.fetch reciter g with
        | response code =>
          rw [hfetch] at h
          by_cases hc : code = 200
          · simp only [hc, if_true] at h
            cases hw : env.write (get_download_path reciter s v) with
            | ok =>
              rw [hw] at h
              simp at h
              exact ⟨h.symm, rfl⟩
            | failAfterCreate msg =>
              rw [hw] at h
              simp at h
            | failBeforeCreate msg =>
              rw [hw] at h
              simp at h
          · simp [hc] at h
        | timeout =>
          rw [hfetch] at h
          simp at h
        | exc msg =>
          rw [hfetch] at h
          simp at h

/-- Witness for the amended C6: a 200 fetch whose local write raises after
`open` created the file returns failed with the partial file on disk. -/
theorem c6_witness :
    ((⟨[("ar.alafasy", 1, 1)], [("ar.alafasy", 1)]⟩ : FS).dirs =
      (emptyFS.addDir ("ar.alafasy", 1)).dirs) ∧
    ((⟨[("ar.alafasy", 1, 1)], [("ar.alafasy", 1)]⟩ : FS).files = emptyFS.files ∨
      ((⟨[("ar.alafasy", 1, 1)], [("ar.alafasy", 1)]⟩ : FS).files =
          get_download_path "ar.alafasy" 1 1 :: emptyFS.files ∧
        emptyFS.hasFile (get_download_path "ar.alafasy" 1 1) = false ∧
        isOk200 (writeFailEnv.fetch "ar.alafasy" 1) = true)) :=
  c6_amended_write_only_on_200.1 writeFailEnv emptyFS "ar.alafasy" 1 1 1
    "No space left on device" ⟨[("ar.alafasy", 1, 1)], [("ar.alafasy", 1)]⟩
    (by rfl)

/-- C8 counterexample: for an already-present file the Transfer Unit still
acquires a semaphore slot, and it acquires it BEFORE the existence check —
`async with self.semaphore` (line 90) encloses the check (line 94). This
refutes both halves of the claim (check before acquire; acquire only when
the file is absent). -/
theorem c8_counterexample :
    verseActions true (.response 200) =
      [Act.acquireSem, Act.checkExists, Act.releaseSem] ∧
    Act.acquireSem ∈ verseActions true (.response 200) ∧
    (verseActions true (.response 200)).head? = some Act.acquireSem := by
  refine ⟨rfl, ?_, rfl⟩
  decide

/-- C8 amended: the Transfer Unit acquires a limiter slot FIRST, for every
item — including already-present ones — performs the existence check while
holding the slot, and releases it on every exit path (exactly one acquire
and one release per invocation). -/
theorem c8_amended_acquire_first :
    (∀ o, verseActions true o = [Act.acquireSem, Act.checkExists, Act.releaseSem]) ∧
    (∀ b o, (verseActions b o).head? = some Act.acquireSem) ∧
    (∀ b o, (verseActions b o).getLast? = some Act.releaseSem) ∧
    (∀ b o, (verseActions b o).count Act.acquireSem = 1 ∧
      (verseActions b o).count Act.releaseSem = 1) := by
  refine ⟨fun o => rfl, ?_, ?_, ?_⟩
  · intro b o
    cases b <;> rfl
  · intro b o
    cases b with
    | true => rfl
    | false =>
      cases o with
      | response code =>
        by_cases hc : code = 200 <;> simp [verseActions, hc]
      | timeout => rfl
      | exc m => rfl
  · intro b o
    cases b with
    | true => exact ⟨rfl, rfl⟩
    | false =>
      cases o with
      | response code =>
        by_cases hc : code = 200 <;> simp [verseActions, hc, List.count_cons]
      | timeout => exact ⟨rfl, rfl⟩
      | exc m => exact ⟨rfl, rfl⟩

/-! ## Semaphore invariant (C4) -/

/-- A request is in flight only while its task holds a semaphore slot
(`session.get` sits inside `async with self.semaphore`). -/
theorem inflight_le_holding (l : List Phase) : inflightCount l ≤ holdingCount l := by
  unfold inflightCount holdingCount
  apply List.countP_mono_left
  intro a _ h
  cases a <;> simp_all [isHolding]

/-- Updating one task's phase changes a phase count by the difference of
the old and new phase's contribution. -/
theorem countP_set_balance (p : Phase → Bool) :
    ∀ (l : List Phase) (i : Nat) (x y : Phase), l[i]? = some y →
    (l.set i x).countP p + (if p y then 1 else 0) =
      l.countP p + (if p x then 1 else 0) := by
  intro l
  induction l with
  | nil => intro i x y h; simp at h
  | cons a as ih =>
    intro i x y h
    cases i with
    | zero =>
      simp at h
      subst h
      simp [List.countP_cons]
      omega
    | succ n =>
      simp at h
      simp [List.countP_cons]
      have := ih n x y h
      omega

theorem holdingCount_replicate_pending (n : Nat) :
    holdingCount (List.replicate n Phase.pending) = 0 := by
  unfold holdingCount
  induction n with
  | zero => rfl
  | succ k ih => simp [List.replicate_succ, List.countP_cons, ih, isHolding]

/-- Every step keeps the semaphore capacity: the run shares one semaphore,
it is never reset. -/
theorem semStep_cap {s1 s2 : SemState} (h : SemStep s1 s2) : s2.cap = s1.cap := by
  cases h <;> rfl

/-- One step preserves the semaphore bound on slot holders. -/
theorem semStep_holding {s1 s2 : SemState} (h : SemStep s1 s2)
    (hb : holdingCount s1.tasks ≤ s1.cap) :
    holdingCount s2.tasks ≤ s2.cap := by
  cases h with
  | acquire cap l i hi hcap =>
    have hbal := countP_set_balance isHolding l i Phase.checking Phase.pending hi
    simp [isHolding] at hbal
    simp only [holdingCount] at *
    omega
  | startFetch cap l i hi =>
    have hbal := countP_set_balance isHolding l i Phase.fetching Phase.checking hi
    simp [isHolding] at hbal
    simp only [holdingCount] at *
    omega
  | endFetch cap l i hi =>
    have hbal := countP_set_balance isHolding l i Phase.checking Phase.fetching hi
    simp [isHolding] at hbal
    simp only [holdingCount] at *
    omega
  | release cap l i hi =>
    have hbal := countP_set_balance isHolding l i Phase.done Phase.checking hi
    simp [isHolding] at hbal
    simp only [holdingCount] at *
    omega

/-- C4: in every state reachable from the start of a run over any catalog
size `n`, the number of in-flight network requests is at most the number of
semaphore-slot holders, which is at most `MAX_CONCURRENT = 8`; and the
capacity is the same single value throughout the run (the semaphore is
created once in `__init__` and never reset per collection or reciter). -/
theorem c4_semaphore_bounds_inflight (n : Nat) (s : SemState)
    (h : Relation.ReflTransGen SemStep (initState n) s) :
    inflightCount s.tasks ≤ MAX_CONCURRENT ∧
    holdingCount s.tasks ≤ MAX_CONCURRENT ∧ s.cap = MAX_CONCURRENT := by
  have main : holdingCount s.tasks ≤ s.cap ∧ s.cap = MAX_CONCURRENT := by
    induction h with
    | refl =>
      refine ⟨?_, rfl⟩
      simp [initState, holdingCount_replicate_pending]
    | tail hsteps hstep ih =>
      exact ⟨semStep_holding hstep ih.1, (semStep_cap hstep).trans ih.2⟩
  refine ⟨?_, ?_, main.2⟩
  · exact le_trans (inflight_le_holding s.tasks) (main.2 ▸ main.1)
  · exact main.2 ▸ main.1

/-- Witness for C4 at the initial state of a five-item catalog. -/
theorem c4_witness :
    inflightCount (initState 5).tasks ≤ MAX_CONCURRENT ∧
    holdingCount (initState 5).tasks ≤ MAX_CONCURRENT ∧
    (initState 5).cap = MAX_CONCURRENT :=
  c4_semaphore_bounds_inflight 5 (initState 5) Relation.ReflTransGen.refl

/-! ## Per-verse step lemmas -/

/-- The tag `download_verse` returns for an absent file whose `mkdir`
succeeded and whose local write (when the fetch yields HTTP 200)
succeeds, as a function of the fetch outcome. -/
def tagOf : FetchOutcome → Bool × String
  | .response code =>
    if code = 200 then (true, "downloaded") else (false, "HTTP " ++ toString code)
  | .timeout => (false, "timeout")
  | .exc m => (false, m)

theorem hasFile_addDir (fs : FS) (d : DirPath) (p : VersePath) :
    (fs.addDir d).hasFile p = fs.hasFile p := rfl

theorem hasFile_addFile (fs : FS) (q p : VersePath) :
    (fs.addFile q).hasFile p = (decide (p = q) || fs.hasFile p) := by
  simp [FS.hasFile, FS.addFile, List.contains_cons]

theorem hasFile_iff_mem (fs : FS) (p : VersePath) :
    fs.hasFile p = true ↔ p ∈ fs.files := by
  simp [FS.hasFile]

theorem hasFile_false_iff (fs : FS) (p : VersePath) :
    fs.hasFile p = false ↔ p ∉ fs.files := by
  rw [← hasFile_iff_mem]
  simp

theorem download_verse_skip (env : Env) (fs : FS) (reciter : String) (s v g : Nat)
    (hex : fs.hasFile (reciter, s, v) = true) :
    download_verse env fs reciter s v g = .ok ((true, "skipped"), fs) := by
  unfold download_verse get_download_path
  simp [hex]

theorem tagOf_fst (o : FetchOutcome) : (tagOf o).1 = isOk200 o := by
  cases o with
  | response code => by_cases hc : code = 200 <;> simp [tagOf, isOk200, hc]
  | timeout => rfl
  | exc m => rfl

theorem tagOf_true (o : FetchOutcome) (h : isOk200 o = true) :
    tagOf o = (true, "downloaded") := by
  cases o with
  | response code =>
    simp [isOk200] at h
    simp [tagOf, h]
  | timeout => simp [isOk200] at h
  | exc m => simp [isOk200] at h

theorem download_verse_absent_ok (env : Env) (fs : FS) (reciter : String)
    (s v g : Nat)
    (hex : fs.hasFile (reciter, s, v) = false)
    (hmk : env.mkdirOk (reciter, s) = true)
    (hok : isOk200 (env.fetch reciter g) = true)
    (hw : env.write (reciter, s, v) = .ok) :
    download_verse env fs reciter s v g =
      .ok ((true, "downloaded"), (fs.addDir (reciter, s)).addFile (reciter, s, v)) := by
  unfold download_verse get_download_path
  simp only [hex, hmk, Bool.false_eq_true, if_false, if_true]
  cases henv : env.fetch reciter g with
  | response code =>
    rw [henv] at hok
    simp [isOk200] at hok
    simp [hok, hw]
  | timeout => rw [henv] at hok; simp [isOk200] at hok
  | exc m => rw [henv] at hok; simp [isOk200] at hok

/-- An IO error raised by the write after `open` created the file is
caught inside the `try` and returned as failed — with the (partial) file
present. -/
theorem download_verse_absent_writeFailA (env : Env) (fs : FS)
    (reciter : String) (s v g : Nat) (msg : String)
    (hex : fs.hasFile (reciter, s, v) = false)
    (hmk : env.mkdirOk (reciter, s) = true)
    (hok : isOk200 (env.fetch reciter g) = true)
    (hw : env.write (reciter, s, v) = .failAfterCreate msg) :
    download_verse env fs reciter s v g =
      .ok ((false, msg), (fs.addDir (reciter, s)).addFile (reciter, s, v)) := by
  unfold download_verse get_download_path
  simp only [hex, hmk, Bool.false_eq_true, if_false, if_true]
  cases henv : env.fetch reciter g with
  | response code =>
    rw [henv] at hok
    simp [isOk200] at hok
    simp [hok, hw]
  | timeout => rw [henv] at hok; simp [isOk200] at hok
  | exc m => rw [henv] at hok; simp [isOk200] at hok

/-- An IO error raised by `open` before the file exists is caught inside
the `try` and returned as failed, with no file created. -/
theorem download_verse_absent_writeFailB (env : Env) (fs : FS)
    (reciter : String) (s v g : Nat) (msg : String)
    (hex : fs.hasFile (reciter, s, v) = false)
    (hmk : env.mkdirOk (reciter, s) = true)
    (hok : isOk200 (env.fetch reciter g) = true)
    (hw : env.write (reciter, s, v) = .failBeforeCreate msg) :
    download_verse env fs reciter s v g =
      .ok ((false, msg), fs.addDir (reciter, s)) := by
  unfold download_verse get_download_path
  simp only [hex, hmk, Bool.false_eq_true, if_false, if_true]
  cases henv : env.fetch reciter g with
  | response code =>
    rw [henv] at hok
    simp [isOk200] at hok
    simp [hok, hw]
  | timeout => rw [henv] at hok; simp [isOk200] at hok
  | exc m => rw [henv] at hok; simp [isOk200] at hok

theorem download_verse_absent_fail (env : Env) (fs : FS) (reciter : String)
    (s v g : Nat)
    (hex : fs.hasFile (reciter, s, v) = false)
    (hmk : env.mkdirOk (reciter, s) = true)
    (hok : isOk200 (env.fetch reciter g) = false) :
    download_verse env fs reciter s v g =
      .ok (tagOf (env.fetch reciter g), fs.addDir (reciter, s)) := by
  unfold download_verse get_download_path
  simp only [hex, hmk, Bool.false_eq_true, if_false, if_true]
  cases henv : env.fetch reciter g with
  | response code =>
    rw [henv] at hok
    simp [isOk200] at hok
    simp [tagOf, hok]
  | timeout => simp [tagOf]
  | exc m => simp [tagOf]

/-! ## Counting lemmas for the result lists -/

theorem filter_length_partition (p : Nat → Bool) (vs : List Nat) :
    (vs.filter p).length + (vs.filter fun v => !p v).length = vs.length := by
  induction vs with
  | nil => rfl
  | cons v rest ih =>
    by_cases hv : p v <;> simp [List.filter_cons, hv] <;> omega

theorem tagOf_filter_down (o : FetchOutcome) :
    ((tagOf o).1 && (tagOf o).2 == "downloaded") = isOk200 o := by
  cases o with
  | response code =>
    by_cases hc : code = 200 <;> simp [tagOf, isOk200, hc]
  | timeout => rfl
  | exc m => rfl

theorem tagOf_filter_skip (o : FetchOutcome) :
    ((tagOf o).1 && (tagOf o).2 == "skipped") = false := by
  cases o with
  | response code =>
    by_cases hc : code = 200 <;> simp [tagOf, hc]
  | timeout => rfl
  | exc m => rfl

theorem countResults_map_tags (vs : List Nat) (f : Nat → FetchOutcome) (t : Nat) :
    countResults (vs.map fun v => tagOf (f v)) t =
      { downloaded := (vs.filter fun v => isOk200 (f v)).length
        skipped := 0
        failed := (vs.filter fun v => !isOk200 (f v)).length
        total := t } := by
  induction vs with
  | nil => rfl
  | cons v rest ih =>
    have ih1 := congrArg SurahResult.downloaded ih
    have ih2 := congrArg SurahResult.skipped ih
    have ih3 := congrArg SurahResult.failed ih
    simp only [countResults] at ih1 ih2 ih3
    by_cases hok : isOk200 (f v)
    · rw [List.map_cons, tagOf_true (f v) hok]
      simp [countResults, List.filter_cons, hok, ih1, ih2, ih3]
    · have hfst : (tagOf (f v)).1 = false := by
        rw [tagOf_fst]
        simpa using hok
      rw [List.map_cons]
      simp [countResults, List.filter_cons, hfst, hok, ih1, ih2, ih3]

theorem countResults_replicate_skipped (n t : Nat) :
    countResults (List.replicate n ((true, "skipped") : Bool × String)) t =
      { downloaded := 0, skipped := n, failed := 0, total := t } := by
  induction n with
  | zero => rfl
  | succ k ih =>
    have ih1 := congrArg SurahResult.downloaded ih
    have ih2 := congrArg SurahResult.skipped ih
    have ih3 := congrArg SurahResult.failed ih
    simp only [countResults] at ih1 ih2 ih3
    simp [countResults, List.replicate_succ, List.filter_cons, ih1, ih2, ih3]

/-! ## Characterisations of the per-collection gather -/

theorem verseList_nodup (s : Nat) : (verseList s).Nodup := by
  unfold verseList
  exact List.nodup_range' 1 (verseCount s)

theorem verseList_length (s : Nat) : (verseList s).length = verseCount s := by
  unfold verseList
  simp [List.length_range']

/-- All verses already on disk: every Transfer Unit skips, nothing changes. -/
theorem downloadVerses_present (env : Env) (reciter : String) (s : Nat) :
    ∀ (vs : List Nat) (fs : FS),
    (∀ v ∈ vs, fs.hasFile (reciter, s, v) = true) →
    downloadVerses env reciter s fs vs =
      .ok (vs.map fun _ => ((true, "skipped") : Bool × String), fs) := by
  intro vs
  induction vs with
  | nil => intro fs _; rfl
  | cons v rest ih =>
    intro fs h
    have h1 := download_verse_skip env fs reciter s v
      (calculate_global_verse_number s v) (h v (by simp))
    unfold downloadVerses
    rw [h1]
    simp [ih fs (fun v' hv' => h v' (by simp [hv']))]

/-- No verse on disk yet, `mkdir` always succeeding: each verse resolves to
the tag of its own fetch outcome, and the files written are exactly the
successfully fetched verses. -/
theorem downloadVerses_fresh (env : Env) (reciter : String) (s : Nat)
    (hmk : ∀ d, env.mkdirOk d = true)
    (hwr : ∀ p, env.write p = .ok) :
    ∀ (vs : List Nat) (fs : FS),
    (∀ v ∈ vs, fs.hasFile (reciter, s, v) = false) → vs.Nodup →
    ∃ fs' : FS,
      downloadVerses env reciter s fs vs =
        .ok (vs.map fun v =>
          tagOf (env.fetch reciter (calculate_global_verse_number s v)), fs') ∧
      fs'.files =
        ((vs.filter fun v =>
            isOk200 (env.fetch reciter (calculate_global_verse_number s v))).map
          fun v => ((reciter, s, v) : VersePath)).reverse ++ fs.files := by
  intro vs
  induction vs with
  | nil =>
    intro fs _ _
    exact ⟨fs, rfl, by simp⟩
  | cons v rest ih =>
    intro fs hfresh hnd
    have hexv : fs.hasFile (reciter, s, v) = false := hfresh v (by simp)
    by_cases hok : isOk200 (env.fetch reciter (calculate_global_verse_number s v))
    · have hstep := download_verse_absent_ok env fs reciter s v
        (calculate_global_verse_number s v) hexv (hmk _) hok (hwr _)
      have hfresh1 : ∀ v' ∈ rest,
          ((fs.addDir (reciter, s)).addFile (reciter, s, v)).hasFile
            (reciter, s, v') = false := by
        intro v' hv'
        have hne : ¬ v' = v := fun hc => (List.nodup_cons.mp hnd).1 (hc ▸ hv')
        rw [hasFile_addFile, hasFile_addDir]
        simp [hfresh v' (by simp [hv']), hne]
      obtain ⟨fs2, hrun, hfiles⟩ :=
        ih ((fs.addDir (reciter, s)).addFile (reciter, s, v)) hfresh1
          (List.nodup_cons.mp hnd).2
      refine ⟨fs2, ?_, ?_⟩
      · unfold downloadVerses
        rw [hstep]
        simp [hrun, tagOf_true _ hok]
      · rw [hfiles]
        simp [List.filter_cons, hok, FS.addFile, FS.addDir]
    · have hstep := download_verse_absent_fail env fs reciter s v
        (calculate_global_verse_number s v) hexv (hmk _) (by simpa using hok)
      have hfresh1 : ∀ v' ∈ rest,
          (fs.addDir (reciter, s)).hasFile (reciter, s, v') = false := by
        intro v' hv'
        rw [hasFile_addDir]
        exact hfresh v' (by simp [hv'])
      obtain ⟨fs2, hrun, hfiles⟩ :=
        ih (fs.addDir (reciter, s)) hfresh1 (List.nodup_cons.mp hnd).2
      refine ⟨fs2, ?_, ?_⟩
      · unfold downloadVerses
        rw [hstep]
        simp [hrun]
      · rw [hfiles]
        simp [List.filter_cons, hok, FS.addDir]

/-- `download_surah` over a fresh filesystem, `mkdir` and the local
writes always succeeding. -/
theorem download_surah_fresh (env : Env) (reciter : String) (s : Nat)
    (hmk : ∀ d, env.mkdirOk d = true)
    (hwr : ∀ p, env.write p = .ok) (fs : FS)
    (hfresh : ∀ v ∈ verseList s, fs.hasFile (reciter, s, v) = false) :
    ∃ fs' : FS,
      download_surah env fs reciter s =
        .ok ({ downloaded := ((verseList s).filter fun v =>
                 isOk200 (env.fetch reciter (calculate_global_verse_number s v))).length
               skipped := 0
               failed := ((verseList s).filter fun v =>
                 !isOk200 (env.fetch reciter (calculate_global_verse_number s v))).length
               total := verseCount s }, fs') ∧
      fs'.files =
        (((verseList s).filter fun v =>
            isOk200 (env.fetch reciter (calculate_global_verse_number s v))).map
          fun v => ((reciter, s, v) : VersePath)).reverse ++ fs.files := by
  obtain ⟨fs', hrun, hfiles⟩ :=
    downloadVerses_fresh env reciter s hmk hwr (verseList s) fs hfresh
      (verseList_nodup s)
  refine ⟨fs', ?_, hfiles⟩
  unfold download_surah
  rw [hrun]
  simp [countResults_map_tags]

/-- `download_surah` over a filesystem that already holds every verse. -/
theorem download_surah_present (env : Env) (reciter : String) (s : Nat) (fs : FS)
    (h : ∀ v ∈ verseList s, fs.hasFile (reciter, s, v) = true) :
    download_surah env fs reciter s =
      .ok ({ downloaded := 0, skipped := verseCount s, failed := 0,
             total := verseCount s }, fs) := by
  unfold download_surah
  rw [downloadVerses_present env reciter s (verseList s) fs h]
  simp [countResults_replicate_skipped, verseList_length]

/-! ## C10: the three counters partition every gather -/

theorem download_verse_ok_cases (env : Env) (fs : FS) (reciter : String)
    (s v g : Nat) (r : Bool × String) (fs' : FS)
    (h : download_verse env fs reciter s v g = .ok (r, fs')) :
    r = (true, "skipped") ∨ r = (true, "downloaded") ∨ r.1 = false := by
  unfold download_verse at h
  cases hex : fs.hasFile (get_download_path reciter s v) with
  | true =>
    simp [hex] at h
    left
    rw [← h.1]
  | false =>
    simp [hex] at h
    cases hmk : env.mkdirOk (reciter, s) with
    | false => simp [hmk] at h
    | true =>
      simp [hmk] at h
      cases hfetch : env.fetch reciter g with
      | response code =>
        rw [hfetch] at h
        by_cases hc : code = 200
        · simp only [hc, if_true] at h
          cases hw : env.write (get_download_path reciter s v) with
          | ok =>
            rw [hw] at h
            simp at h
            right; left
            rw [← h.1]
          | failAfterCreate msg =>
            rw [hw] at h
            simp at h
            right; right
            rw [← h.1]
          | failBeforeCreate msg =>
            rw [hw] at h
            simp at h
            right; right
            rw [← h.1]
        · simp [hc] at h
          right; right
          rw [← h.1]
      | timeout =>
        rw [hfetch] at h
        simp at h
        right; right
        rw [← h.1]
      | exc m =>
        rw [hfetch] at h
        simp at h
        right; right
        rw [← h.1]

theorem downloadVerses_results (env : Env) (reciter : String) (s : Nat) :
    ∀ (vs : List Nat) (fs : FS) (results : List (Bool × String)) (fs' : FS),
    downloadVerses env reciter s fs vs = .ok (results, fs') →
    results.length = vs.length ∧
    ∀ r ∈ results,
      r = (true, "skipped") ∨ r = (true, "downloaded") ∨ r.1 = false := by
  intro vs
  induction vs with
  | nil =>
    intro fs results fs' h
    simp [downloadVerses] at h
    rw [h.1]
    exact ⟨rfl, by simp⟩
  | cons v rest ih =>
    intro fs results fs' h
    unfold downloadVerses at h
    cases h1 : download_verse env fs reciter s v
        (calculate_global_verse_number s v) with
    | error e => rw [h1] at h; simp at h
    | ok p =>
      obtain ⟨r, fs1⟩ := p
      rw [h1] at h
      dsimp only at h
      cases h2 : downloadVerses env reciter s fs1 rest with
      | error e => rw [h2] at h; simp at h
      | ok q =>
        obtain ⟨rs, fs2⟩ := q
        rw [h2] at h
        simp at h
        obtain ⟨hres, _⟩ := h
        have hhead := download_verse_ok_cases env fs reciter s v
          (calculate_global_verse_number s v) r fs1 h1
        obtain ⟨hlen, hall⟩ := ih fs1 rs fs2 h2
        rw [← hres]
        constructor
        · simp [hlen]
        · intro x hx
          rcases List.mem_cons.mp hx with hx | hx
          · rw [hx]; exact hhead
          · exact hall x hx

theorem countResults_partition_len (results : List (Bool × String)) (t : Nat)
    (h : ∀ r ∈ results,
      r = (true, "skipped") ∨ r = (true, "downloaded") ∨ r.1 = false) :
    (countResults results t).downloaded + (countResults results t).skipped +
      (countResults results t).failed = results.length := by
  induction results with
  | nil => rfl
  | cons r rest ih =>
    have hr := h r (by simp)
    have ihx := ih fun x hx => h x (by simp [hx])
    simp only [countResults] at ihx ⊢
    rcases hr with h1 | h1 | h1
    · rw [h1]
      simp [List.filter_cons]
      omega
    · rw [h1]
      simp [List.filter_cons]
      omega
    · simp [List.filter_cons, h1]
      omega

/-- C10: whenever a collection's gather completes with a result dict, the
three counters partition the processed items:
`downloaded + skipped + failed == total == verse_count(surah)`. -/
theorem c10_counters_partition (env : Env) (fs : FS) (reciter : String)
    (s : Nat) (res : SurahResult) (fs' : FS)
    (h : download_surah env fs reciter s = .ok (res, fs')) :
    res.downloaded + res.skipped + res.failed = res.total ∧
    res.total = verseCount s := by
  unfold download_surah at h
  cases hdv : downloadVerses env reciter s fs (verseList s) with
  | error e => rw [hdv] at h; simp at h
  | ok p =>
    obtain ⟨results, fs1⟩ := p
    rw [hdv] at h
    simp at h
    obtain ⟨hres, _⟩ := h
    obtain ⟨hlen, hall⟩ :=
      downloadVerses_results env reciter s (verseList s) fs results fs1 hdv
    have hpart := countResults_partition_len results (verseCount s) hall
    rw [← hres]
    constructor
    · rw [hpart, hlen, verseList_length]
      rfl
    · rfl

/-- Witness for C10 at reciter `ar.alafasy`, surah 1 (7 verses, all
fetched from an empty mirror). -/
theorem c10_witness :
    (7 : Nat) + 0 + 0 = 7 ∧ (7 : Nat) = verseCount 1 := by
  have h : download_surah allOkEnv emptyFS "ar.alafasy" 1 =
      .ok (⟨7, 0, 0, 7⟩,
        ⟨[("ar.alafasy", 1, 7), ("ar.alafasy", 1, 6), ("ar.alafasy", 1, 5),
          ("ar.alafasy", 1, 4), ("ar.alafasy", 1, 3), ("ar.alafasy", 1, 2),
          ("ar.alafasy", 1, 1)], [("ar.alafasy", 1)]⟩) := by rfl
  exact c10_counters_partition allOkEnv emptyFS "ar.alafasy" 1 _ _ h

/-! ## C7: failure containment -/

/-- C7 counterexample: an IO error in the directory-creation step (line 98,
which sits OUTSIDE the `try` block of lines 103-122) escapes the Transfer
Unit as an uncaught exception instead of being returned as a failed
result, so not every per-item IO failure is contained. -/
theorem c7_counterexample :
    download_verse mkdirFailEnv emptyFS "ar.alafasy" 1 1 1 =
      .error "mkdir OSError" := rfl

/-- A mocked endpoint failing (HTTP 404) at exactly one global index of one
reciter and answering 200 everywhere else; `mkdir` always succeeds. -/
def oneFailEnv (r0 : String) (g0 : Nat) : Env :=
  { mkdirOk := fun _ => true
    fetch := fun r g =>
      if r = r0 ∧ g = g0 then .response 404 else .response 200
    write := fun _ => .ok }

theorem oneFailEnv_isOk (r0 : String) (g0 g : Nat) :
    isOk200 ((oneFailEnv r0 g0).fetch r0 g) = !(decide (g = g0)) := by
  unfold oneFailEnv
  by_cases hg : g = g0 <;> simp [hg, isOk200]

theorem filter_eq_singleton (v0 : Nat) :
    ∀ (vs : List Nat), vs.Nodup → v0 ∈ vs →
    vs.filter (fun v => v == v0) = [v0] := by
  intro vs
  induction vs with
  | nil => intro _ h; simp at h
  | cons v rest ih =>
    intro hnd hmem
    rcases List.mem_cons.mp hmem with heq | hmem'
    · subst heq
      rw [List.filter_cons_of_pos (by simp)]
      have hv : v0 ∉ rest := (List.nodup_cons.mp hnd).1
      have hnil : rest.filter (fun x => x == v0) = [] := by
        rw [List.filter_eq_nil_iff]
        intro a ha
        simp
        exact fun hc => hv (hc ▸ ha)
      rw [hnil]
    · have hne : ¬ v = v0 := fun hc => (List.nodup_cons.mp hnd).1 (hc ▸ hmem')
      rw [List.filter_cons_of_neg (by simp [hne])]
      exact ih (List.nodup_cons.mp hnd).2 hmem'

/-- C7 amended: failures of the fetch itself (non-200 status, timeout, or
an exception raised inside the `try` around the request/read/write) are
contained and returned as results — with `mkdir` succeeding the Transfer
Unit always returns a result, never an exception; and a collection in
which exactly one of its N fetches answers non-200, run against an empty
mirror, completes with `failed == 1`, `downloaded == N - 1`,
`skipped == 0`, and exactly the other N-1 artifacts on disk. (An OS error
from the directory-creation step, which sits outside the `try`, is NOT
contained; see the counterexample.) -/
theorem c7_amended_fetch_failures_contained :
    (∀ env fs reciter s v g, env.mkdirOk (reciter, s) = true →
      ∃ r fs', download_verse env fs reciter s v g = .ok (r, fs')) ∧
    (∀ reciter s v0, v0 ∈ verseList s →
      ∃ fs',
        download_surah (oneFailEnv reciter (calculate_global_verse_number s v0))
          emptyFS reciter s =
          .ok ({ downloaded := verseCount s - 1, skipped := 0, failed := 1,
                 total := verseCount s }, fs') ∧
        (∀ v ∈ verseList s, ¬ v = v0 →
          ((reciter, s, v) : VersePath) ∈ fs'.files) ∧
        ((reciter, s, v0) : VersePath) ∉ fs'.files) := by
  constructor
  · intro env fs reciter s v g hmk
    by_cases hex : fs.hasFile (reciter, s, v)
    · exact ⟨_, _, download_verse_skip env fs reciter s v g hex⟩
    · by_cases hok : isOk200 (env.fetch reciter g)
      · cases hw : env.write (reciter, s, v) with
        | ok =>
          exact ⟨_, _, download_verse_absent_ok env fs reciter s v g
            (by simpa using hex) hmk hok hw⟩
        | failAfterCreate msg =>
          exact ⟨_, _, download_verse_absent_writeFailA env fs reciter s v g msg
            (by simpa using hex) hmk hok hw⟩
        | failBeforeCreate msg =>
          exact ⟨_, _, download_verse_absent_writeFailB env fs reciter s v g msg
            (by simpa using hex) hmk hok hw⟩
      · exact ⟨_, _, download_verse_absent_fail env fs reciter s v g
          (by simpa using hex) hmk (by simpa using hok)⟩
  · intro reciter s v0 hv0
    obtain ⟨fs', hsur, hfiles⟩ :=
      download_surah_fresh (oneFailEnv reciter (calculate_global_verse_number s v0))
        reciter s (fun d => rfl) (fun p => rfl) emptyFS (fun v _ => rfl)
    have hcong : ∀ v ∈ verseList s,
        isOk200 ((oneFailEnv reciter (calculate_global_verse_number s v0)).fetch
          reciter (calculate_global_verse_number s v)) = !(v == v0) := by
      intro v _
      rw [oneFailEnv_isOk]
      have hiff : calculate_global_verse_number s v =
          calculate_global_verse_number s v0 ↔ v = v0 := by
        unfold calculate_global_verse_number
        omega
      by_cases hv : v = v0
      · simp [hiff, hv]
      · simp [hiff, hv]
    have hfil_ok : ((verseList s).filter fun v =>
        isOk200 ((oneFailEnv reciter (calculate_global_verse_number s v0)).fetch
          reciter (calculate_global_verse_number s v))) =
        (verseList s).filter (fun v => !(v == v0)) :=
      List.filter_congr hcong
    have hcong2 : ∀ v ∈ verseList s,
        (!(isOk200 ((oneFailEnv reciter (calculate_global_verse_number s v0)).fetch
          reciter (calculate_global_verse_number s v)))) = (v == v0) := by
      intro v hv
      rw [hcong v hv]
      simp
    have hfil_fail : ((verseList s).filter fun v =>
        !(isOk200 ((oneFailEnv reciter (calculate_global_verse_number s v0)).fetch
          reciter (calculate_global_verse_number s v)))) =
        (verseList s).filter (fun v => v == v0) :=
      List.filter_congr hcong2
    have hsingle : (verseList s).filter (fun v => v == v0) = [v0] :=
      filter_eq_singleton v0 (verseList s) (verseList_nodup s) hv0
    have hlen_fail : ((verseList s).filter fun v =>
        !(isOk200 ((oneFailEnv reciter (calculate_global_verse_number s v0)).fetch
          reciter (calculate_global_verse_number s v)))).length = 1 := by
      rw [hfil_fail, hsingle]
      rfl
    have hpart := filter_length_partition
      (fun v => isOk200 ((oneFailEnv reciter (calculate_global_verse_number s v0)).fetch
        reciter (calculate_global_verse_number s v))) (verseList s)
    have hvl := verseList_length s
    have hlen_ok : ((verseList s).filter fun v =>
        isOk200 ((oneFailEnv reciter (calculate_global_verse_number s v0)).fetch
          reciter (calculate_global_verse_number s v))).length =
        verseCount s - 1 := by
      omega
    refine ⟨fs', ?_, ?_, ?_⟩
    · rw [hsur, hlen_ok, hlen_fail]
    · intro v hv hne
      rw [hfiles, hfil_ok]
      simp only [List.append_nil, List.mem_reverse, List.mem_map, List.mem_filter,
        emptyFS]
      exact ⟨v, ⟨hv, by simp [hne]⟩, rfl⟩
    · rw [hfiles, hfil_ok]
      simp only [List.append_nil, List.mem_reverse, List.mem_map, List.mem_filter,
        emptyFS]
      rintro ⟨v', ⟨hv', hbeq⟩, heq⟩
      have : v' = v0 := by
        have := congrArg (fun p : VersePath => p.2.2) heq
        simpa using this
      rw [this] at hbeq
      simp at hbeq

/-- Witness for the amended C7: surah 1, with verse 3 of 7 failing. -/
theorem c7_witness :
    ∃ fs',
      download_surah (oneFailEnv "ar.alafasy" (calculate_global_verse_number 1 3))
        emptyFS "ar.alafasy" 1 =
        .ok ({ downloaded := verseCount 1 - 1, skipped := 0, failed := 1,
               total := verseCount 1 }, fs') ∧
      (∀ v ∈ verseList 1, ¬ v = 3 →
        (("ar.alafasy", 1, v) : VersePath) ∈ fs'.files) ∧
      (("ar.alafasy", 1, 3) : VersePath) ∉ fs'.files :=
  c7_amended_fetch_failures_contained.2 "ar.alafasy" 1 3 (by decide)

/-! ## Run-level lemmas and C3 (idempotence) -/

/-- Total number of items over a list of (reciter, surah) jobs. -/
def jobsTotal (jobs : List (String × Nat)) : Nat :=
  (jobs.map fun j => verseCount j.2).sum

/-- A run over a mirror that already contains every addressed file only
skips: counters gain `jobsTotal` skipped, filesystem unchanged. -/
theorem runJobs_allPresent (env : Env) :
    ∀ (jobs : List (String × Nat)) (fs : FS) (t : Totals),
    (∀ j ∈ jobs, ∀ v ∈ verseList j.2, fs.hasFile (j.1, j.2, v) = true) →
    runJobs env jobs fs t =
      ({ total_downloaded := t.total_downloaded
         total_skipped := t.total_skipped + jobsTotal jobs
         total_failed := t.total_failed }, fs) := by
  intro jobs
  induction jobs with
  | nil =>
    intro fs t _
    simp [runJobs, jobsTotal]
  | cons j rest ih =>
    obtain ⟨r, s⟩ := j
    intro fs t h
    unfold runJobs
    rw [download_surah_present env r s fs (fun v hv => h (r, s) (by simp) v hv)]
    dsimp only
    rw [ih fs _ (fun j' hj' v hv => h j' (by simp [hj']) v hv)]
    simp [addTotals, jobsTotal, Nat.add_assoc]

/-- A run with every fetch succeeding over a mirror containing none of the
addressed files: every item downloads, and afterwards exactly the union of
the old files and all addressed files is present. -/
theorem runJobs_freshAll (env : Env)
    (hmk : ∀ d, env.mkdirOk d = true)
    (hwr : ∀ p, env.write p = .ok)
    (h200 : ∀ r g, isOk200 (env.fetch r g) = true) :
    ∀ (jobs : List (String × Nat)) (fs : FS) (t : Totals),
    jobs.Nodup →
    (∀ j ∈ jobs, ∀ v ∈ verseList j.2, fs.hasFile (j.1, j.2, v) = false) →
    ∃ fs' : FS,
      runJobs env jobs fs t =
        ({ total_downloaded := t.total_downloaded + jobsTotal jobs
           total_skipped := t.total_skipped
           total_failed := t.total_failed }, fs') ∧
      ∀ p : VersePath, p ∈ fs'.files ↔
        p ∈ fs.files ∨ ∃ j ∈ jobs, ∃ v ∈ verseList j.2, p = (j.1, j.2, v) := by
  intro jobs
  induction jobs with
  | nil =>
    intro fs t _ _
    refine ⟨fs, by simp [runJobs, jobsTotal], ?_⟩
    intro p
    simp
  | cons j rest ih =>
    obtain ⟨r, s⟩ := j
    intro fs t hnd hfresh
    obtain ⟨fs1, hsur, hfiles1⟩ := download_surah_fresh env r s hmk hwr fs
      (fun v hv => hfresh (r, s) (by simp) v hv)
    have hfilter : ((verseList s).filter fun v =>
        isOk200 (env.fetch r (calculate_global_verse_number s v))) = verseList s :=
      List.filter_eq_self.mpr (fun v _ => h200 r _)
    have hfilterN : ((verseList s).filter fun v =>
        !(isOk200 (env.fetch r (calculate_global_verse_number s v)))) = [] := by
      rw [List.filter_eq_nil_iff]
      intro v _
      simp [h200]
    rw [hfilter, hfilterN, verseList_length] at hsur
    simp only [List.length_nil] at hsur
    rw [hfilter] at hfiles1
    have hfresh1 : ∀ j' ∈ rest, ∀ v' ∈ verseList j'.2,
        fs1.hasFile (j'.1, j'.2, v') = false := by
      intro j' hj' v' hv'
      rw [hasFile_false_iff, hfiles1]
      simp only [List.mem_append, List.mem_reverse, List.mem_map]
      rintro (⟨v, _, heq⟩ | hmemfs)
      · have hj : j' = (r, s) := by
          obtain ⟨j1, j2⟩ := j'
          have h1 := congrArg (fun p : VersePath => p.1) heq
          have h2 := congrArg (fun p : VersePath => p.2.1) heq
          simp at h1 h2
          simp [h1, h2]
        exact (List.nodup_cons.mp hnd).1 (hj ▸ hj')
      · exact (hasFile_false_iff fs _).mp
          (hfresh j' (by simp [hj']) v' hv') hmemfs
    obtain ⟨fs2, hrun2, hmem2⟩ := ih fs1
      (addTotals t { downloaded := verseCount s, skipped := 0, failed := 0,
                     total := verseCount s })
      (List.nodup_cons.mp hnd).2 hfresh1
    refine ⟨fs2, ?_, ?_⟩
    · unfold runJobs
      rw [hsur]
      dsimp only
      rw [hrun2]
      simp [addTotals, jobsTotal, Nat.add_assoc]
    · intro p
      rw [hmem2 p, hfiles1]
      simp only [List.mem_append, List.mem_reverse, List.mem_map, List.mem_cons]
      constructor
      · rintro ((⟨v, hv, heq⟩ | hfs) | ⟨j', hj', v, hv, heq⟩)
        · exact Or.inr ⟨(r, s), Or.inl rfl, v, hv, heq.symm⟩
        · exact Or.inl hfs
        · exact Or.inr ⟨j', Or.inr hj', v, hv, heq⟩
      · rintro (hfs | ⟨j', hj' | hj', v, hv, heq⟩)
        · exact Or.inl (Or.inr hfs)
        · subst hj'
          exact Or.inl (Or.inl ⟨v, hv, heq.symm⟩)
        · exact Or.inr ⟨j', hj', v, hv, heq⟩

set_option maxRecDepth 8000 in
theorem allJobs_nodup : allJobs.Nodup := by decide

set_option maxRecDepth 8000 in
theorem jobsTotal_allJobs : jobsTotal allJobs = 12472 := by decide

/-- C3: against an initially empty mirror with every fetch succeeding,
run 1 downloads all 12472 items (6236 verses × 2 reciters) with nothing
skipped and nothing failed; run 2 over the resulting mirror skips all
12472 items, downloads nothing, fails nothing, and leaves the mirror
exactly as it was. -/
theorem c3_idempotent_rerun :
    ∃ fs1 : FS,
      download_all allOkEnv emptyFS =
        ({ total_downloaded := 12472, total_skipped := 0, total_failed := 0 },
          fs1) ∧
      download_all allOkEnv fs1 =
        ({ total_downloaded := 0, total_skipped := 12472, total_failed := 0 },
          fs1) := by
  obtain ⟨fs1, hrun1, hmem⟩ := runJobs_freshAll allOkEnv (fun d => rfl)
    (fun p => rfl) (fun r g => rfl) allJobs emptyFS Totals.zero allJobs_nodup
    (fun j _ v _ => rfl)
  refine ⟨fs1, ?_, ?_⟩
  · unfold download_all
    rw [hrun1]
    simp [Totals.zero, jobsTotal_allJobs]
  · unfold download_all
    have hpres : ∀ j ∈ allJobs, ∀ v ∈ verseList j.2,
        fs1.hasFile (j.1, j.2, v) = true := by
      intro j hj v hv
      rw [hasFile_iff_mem, hmem]
      exact Or.inr ⟨j, hj, v, hv, rfl⟩
    rw [runJobs_allPresent allOkEnv allJobs fs1 Totals.zero hpres]
    simp [Totals.zero, jobsTotal_allJobs]

/-! ## C9: when the run totals are updated -/

/-- Componentwise sum of two counter triples. -/
def addT (a b : Totals) : Totals :=
  { total_downloaded := a.total_downloaded + b.total_downloaded
    total_skipped := a.total_skipped + b.total_skipped
    total_failed := a.total_failed + b.total_failed }

theorem resolvedOf_append (a b : List Ev) :
    resolvedOf (a ++ b) = addT (resolvedOf a) (resolvedOf b) := by
  simp [resolvedOf, addT, List.filterMap_append, List.filter_append]

theorem reportedOf_append (a b : List Ev) :
    reportedOf (a ++ b) = addT (reportedOf a) (reportedOf b) := by
  simp [reportedOf, addT]

theorem filterMap_resolveTag_map (l : List (Bool × String)) :
    (l.map Ev.resolve).filterMap resolveTag = l := by
  induction l with
  | nil => rfl
  | cons x xs ih => simp [resolveTag, ih]

theorem resolvedOf_resolves (l : List (Bool × String)) :
    resolvedOf (l.map Ev.resolve) =
      { total_downloaded := (l.filter fun r => r.1 && r.2 == "downloaded").length
        total_skipped := (l.filter fun r => r.1 && r.2 == "skipped").length
        total_failed := (l.filter fun r => !r.1).length } := by
  unfold resolvedOf
  rw [filterMap_resolveTag_map]

theorem reportedOf_resolves (l : List (Bool × String)) :
    reportedOf (l.map Ev.resolve) = Totals.zero := by
  induction l with
  | nil => rfl
  | cons x xs ih =>
    have i1 := congrArg Totals.total_downloaded ih
    have i2 := congrArg Totals.total_skipped ih
    have i3 := congrArg Totals.total_failed ih
    simp only [reportedOf, Totals.zero, List.map_map] at i1 i2 i3
    simp [reportedOf, Totals.zero, List.map_map, i1, i2, i3]

theorem resolvedOf_update (d s f : Nat) :
    resolvedOf [Ev.update d s f] = Totals.zero := rfl

theorem reportedOf_update (d s f : Nat) :
    reportedOf [Ev.update d s f] =
      { total_downloaded := d, total_skipped := s, total_failed := f } := rfl

theorem resolvedOf_cooldown : resolvedOf [Ev.cooldown] = Totals.zero := rfl

theorem reportedOf_cooldown : reportedOf [Ev.cooldown] = Totals.zero := rfl

theorem resolvedOf_nil : resolvedOf [] = Totals.zero := rfl

theorem reportedOf_nil : reportedOf [] = Totals.zero := rfl

/-- Inside one collection block, the single totals `update` event carries
exactly the tally of the block's resolved Transfer Units. -/
theorem surahBlock_balanced (results : List (Bool × String)) (t : Nat) :
    resolvedOf (surahBlock results (countResults results t)) =
      reportedOf (surahBlock results (countResults results t)) := by
  unfold surahBlock
  cases hc : needsCooldown (countResults results t).failed
      (countResults results t).total with
  | true =>
    simp only [hc, if_true]
    rw [resolvedOf_append, resolvedOf_append, reportedOf_append, reportedOf_append,
      resolvedOf_resolves, reportedOf_resolves, resolvedOf_update, reportedOf_update,
      resolvedOf_cooldown, reportedOf_cooldown]
    simp [addT, Totals.zero, countResults]
  | false =>
    simp only [hc, Bool.false_eq_true, if_false]
    rw [resolvedOf_append, resolvedOf_append, reportedOf_append, reportedOf_append,
      resolvedOf_resolves, reportedOf_resolves, resolvedOf_update, reportedOf_update,
      resolvedOf_nil, reportedOf_nil]
    simp [addT, Totals.zero, countResults]

/-- Any whole number of leading collection blocks is balanced: reported
totals equal resolved tallies at each collection boundary. -/
theorem runBlocks_balanced (env : Env) :
    ∀ (jobs : List (String × Nat)) (fs : FS) (m : Nat),
    resolvedOf (((runBlocks env jobs fs).take m).flatten) =
      reportedOf (((runBlocks env jobs fs).take m).flatten) := by
  intro jobs
  induction jobs with
  | nil =>
    intro fs m
    unfold runBlocks
    rw [List.take_nil]
    rfl
  | cons j rest ih =>
    obtain ⟨r, s⟩ := j
    intro fs m
    unfold runBlocks
    cases hdv : downloadVerses env r s fs (verseList s) with
    | error e =>
      dsimp only
      rw [List.take_nil]
      rfl
    | ok p =>
      obtain ⟨results, fs1⟩ := p
      dsimp only
      cases m with
      | zero => rfl
      | succ m' =>
        rw [List.take_succ_cons, List.flatten_cons, resolvedOf_append,
          reportedOf_append, surahBlock_balanced, ih fs1 m']

/-- C9 counterexample: one Transfer Unit has already resolved (the first
verse of surah 1 is downloaded) but the reported run totals are still all
zero — the run counters are folded in only at collection granularity
(lines 176-178), after a surah's gather completes, so at a mid-collection
interruption point the reported partial totals do not equal the tally of
the Transfer Units resolved so far. -/
theorem c9_counterexample :
    resolvedOf ((runTrace allOkEnv emptyFS).take 1) =
      { total_downloaded := 1, total_skipped := 0, total_failed := 0 } ∧
    reportedOf ((runTrace allOkEnv emptyFS).take 1) =
      { total_downloaded := 0, total_skipped := 0, total_failed := 0 } ∧
    resolvedOf ((runTrace allOkEnv emptyFS).take 1) ≠
      reportedOf ((runTrace allOkEnv emptyFS).take 1) := by
  refine ⟨rfl, rfl, by decide⟩

/-- C9 amended: the run counters are accumulated incrementally per
COLLECTION — after each surah's gather resolves, its counts are folded
into the run totals, so at every collection boundary (any whole number of
leading collection blocks of the trace) the reported totals equal the
exact tally of all Transfer Units resolved so far; only within an
unfinished collection do they lag. -/
theorem c9_amended_totals_per_collection (env : Env) (fs : FS) (m : Nat) :
    reportedOf (((runBlocks env allJobs fs).take m).flatten) =
      resolvedOf (((runBlocks env allJobs fs).take m).flatten) :=
  (runBlocks_balanced env allJobs fs m).symm

end Hikma
